import Mathlib

/-!
Shallow embedding of `pkg/datapath/linux/devices.go` (network device
detection and reconciliation of the Cilium fork) and verification of the
specification claims about it.

The kernel / netlink / filesystem / Kubernetes collaborators are modelled
as an explicit environment (`Env`); the mutable agent state
(`DeviceManager.devices` plus the externally visible `option.Config`
fields this module rewrites) is threaded explicitly (`State`).
`None` results of environment oracles model errors of the corresponding
Go call.
-/

namespace Devices

/-! ## Primitive string operations used by the Go code -/

/-- Go `strings.HasPrefix s p`. -/
def goStartsWith (s p : String) : Bool := p.toList.isPrefixOf s.toList

/-- Go `strings.HasSuffix s p`. -/
def goEndsWith (s p : String) : Bool := p.toList.isSuffixOf s.toList

/-- Go `strings.TrimRight s "+"`: drop every trailing `'+'`. -/
def goTrimRightPlus (s : String) : String :=
  ⟨(s.toList.reverse.dropWhile (· == '+')).reverse⟩

/-- Go `strings.TrimSpace s`: drop leading and trailing whitespace. -/
def goTrimSpace (s : String) : String :=
  ⟨((s.toList.dropWhile Char.isWhitespace).reverse.dropWhile Char.isWhitespace).reverse⟩

/-- Whether `pat` occurs as a contiguous infix of `l`. -/
def listIsInfixOf (pat l : List Char) : Bool :=
  pat.isPrefixOf l ||
    match l with
    | [] => false
    | _ :: t => listIsInfixOf pat t

/-- Go `strings.Contains s sub`. -/
def goContains (s sub : String) : Bool := listIsInfixOf sub.toList s.toList

/-! ## Data model of the external entities -/

/-- An IP address, abstracted: the Go code only asks whether `To4()` is
non-nil and compares addresses for equality. -/
structure NetIP where
  isV4 : Bool
  val : Nat
deriving DecidableEq, Repr

/-- A `netlink.Addr` as used here: its IP and its kernel address flags. -/
structure Addr where
  ip : NetIP
  flags : Nat
deriving DecidableEq, Repr

/-- A kernel link (`netlink.Link`), restricted to the attributes the code
reads.  `hasMacAddr` models the external `mac.LinkHasMacAddr`; `typ` is
`link.Type()`; `rawFlags` are the raw kernel interface flags and `flags`
the `net.Flags`. -/
structure Link where
  name : String
  typ : String
  rawFlags : Nat
  flags : Nat
  hasMacAddr : Bool
  masterIndex : Int
deriving DecidableEq, Repr

/-- Destination of a route; the code only asks `IP.IsGlobalUnicast()`. -/
structure RouteDst where
  isGlobalUnicast : Bool
deriving DecidableEq, Repr

/-- A `netlink.Route` as used here; `dst = none` is a default route. -/
structure Route where
  dst : Option RouteDst
  table : Nat
  linkIndex : Int
deriving DecidableEq, Repr

/-- A traffic-control filter returned by `netlink.FilterList`: either a
`*netlink.BpfFilter` carrying a name, or some other filter kind. -/
inductive TcFilter where
  | bpf (name : String)
  | other
deriving DecidableEq, Repr

/-- An address as returned by the global `netlink.AddrList(nil, family)`
used by `findK8SNodeIPLink`: its IP and owning link index. -/
structure GAddr where
  ip : NetIP
  linkIndex : Int
deriving DecidableEq, Repr

/-- A directory entry from `os.ReadDir`. -/
structure DirEntry where
  name : String
  isDir : Bool
deriving DecidableEq, Repr

/-- Result of `os.Stat` on the dynamic-device path: the error satisfies
`os.IsNotExist`, some other error occurred, or the path exists with the
given directory bit. -/
inductive PathStat where
  | errNotExist
  | errOther
  | found (isDir : Bool)
deriving DecidableEq, Repr

/-- The fields of the external `option.Config` read or written by this
module.  `directRoutingDeviceRequired` — Modelled from the spec: the
external method `option.Config.DirectRoutingDeviceRequired()` (its body
is not part of this repository); the spec describes it as "required by
enabled features", so it is taken as an opaque boolean input. -/
structure Config where
  devices : List String
  directRoutingDevice : String
  ipv6MCastDevice : String
  enableIPv4 : Bool
  enableIPv6 : Bool
  enableHostLegacyRouting : Bool
  enableNodePort : Bool
  enableHostFirewall : Bool
  enableBandwidthManager : Bool
  enableIPv6NDP : Bool
  directRoutingDeviceRequired : Bool
deriving DecidableEq, Repr

/-- The environment: results of every external call the module makes.
A `none` models the corresponding call returning an error. -/
structure Env where
  /-- Go `dm.handle.LinkList()`. -/
  linkList : Option (List Link)
  /-- Go `dm.handle.LinkByIndex`. -/
  linkByIndex : Int → Option Link
  /-- global `netlink.LinkByName`. -/
  linkByName : String → Option Link
  /-- Go `netlink.AddrList(link, family)`, keyed by the link's name. -/
  addrList : String → Nat → Option (List Addr)
  /-- Go `dm.handle.RouteListFiltered(family, table-unspec filter)`. -/
  routeList : Nat → Option (List Route)
  /-- Go `netlink.FilterList(link, parent)`, keyed by the link's name. -/
  filterList : String → Nat → Option (List TcFilter)
  /-- Go `probesManager.GetHelpers("sched_cls")`: the available helper names,
  or `none` when the probe returns no map. -/
  schedClsHelpers : Option (List String)
  /-- Go `k8s.IsEnabled()`. -/
  k8sEnabled : Bool
  /-- Go `node.GetK8sNodeIP()`. -/
  k8sNodeIP : Option NetIP
  /-- global `netlink.AddrList(nil, family)`. -/
  globalAddrList : Nat → Option (List GAddr)
  /-- global `netlink.LinkByIndex`. -/
  globalLinkByIndex : Int → Option Link
  /-- Go `node.GetMasqIPv4AddrsWithDevices()`. -/
  masqIPv4Addrs : String → Option NetIP
  /-- Go `viper.GetStringSlice(option.Devices)`. -/
  viperDevices : List String
  /-- Go `os.Stat(DynamicDevicePath)`. -/
  statDynamicPath : PathStat
  /-- Go `os.ReadDir(DynamicDevicePath)`. -/
  readDirDynamicPath : Option (List DirEntry)

/-- The device set (the key set of the Go map `dm.devices`), modelled as
a duplicate-free list; insertion is `insertDev`, deletion `List.erase`,
and the externally exposed projection sorts it (`getDeviceList`). -/
abbrev DeviceSet := List String

/-- Map insertion `dm.devices[name] = struct{}{}`: a no-op when the key
is already present. -/
def insertDev (name : String) (devs : DeviceSet) : DeviceSet :=
  if name ∈ devs then devs else devs ++ [name]

/-- Lexicographic comparison of character lists by code point; for UTF-8
encoded strings this coincides with Go's byte-wise string order. -/
def charListLe : List Char → List Char → Bool
  | [], _ => true
  | _ :: _, [] => false
  | a :: as, b :: bs =>
    if a.toNat < b.toNat then true
    else if b.toNat < a.toNat then false
    else charListLe as bs

/-- Go string comparison `a <= b`. -/
def strLe (a b : String) : Bool := charListLe a.toList b.toList

/-- Go string comparison as a relation, for use with `insertionSort`. -/
def strLeRel (a b : String) : Prop := strLe a b = true

instance : DecidableRel strLeRel := fun a b =>
  inferInstanceAs (Decidable (strLe a b = true))

/-- Go `sort.Strings`, as a structurally recursive insertion sort. -/
def sortStrings (l : List String) : List String :=
  l.insertionSort strLeRel

/-- The mutable state: the device set owned by the `DeviceManager`, the
filter captured at construction (`dm.filter`), and the mutable
configuration fields. -/
structure State where
  devices : DeviceSet
  filter : List String
  config : Config

/-! ## Constants -/

def netlinkFAMILY_ALL : Nat := 0
def netlinkFAMILY_V4 : Nat := 2
def netlinkFAMILY_V6 : Nat := 10
def RT_TABLE_LOCAL : Nat := 255
def IFF_SLAVE : Nat := 0x800
def IFF_LOOPBACK : Nat := 0x8
def IFA_F_SECONDARY : Nat := 0x01
def IFA_F_DEPRECATED : Nat := 0x20
/-- Go `net.FlagMulticast`. -/
def netFlagMulticast : Nat := 16
def tcFilterParentIngress : Nat := 0xfffffff2
def tcFilterParentEgress : Nat := 0xfffffff3
/-- Go `defaults.HostDevice`. -/
def hostDevice : String := "cilium_host"

def excludedDevicePrefixes : List String :=
  ["cilium_", "lo", "lxc", "cni", "docker"]

/-- Exclude devices that have one or more of these flags set. -/
def excludedIfFlagsMask : Nat := IFF_SLAVE ||| IFF_LOOPBACK

/-! ## Device filter (`deviceFilter`, `checkDeviceWithIP`, `checkLinkAddrs`) -/

/-- Go `checkLinkAddrs(l, family)`: the address listing succeeds and is
non-empty. -/
def checkLinkAddrs (env : Env) (l : Link) (family : Nat) : Bool :=
  match env.addrList l.name family with
  | none => false
  | some addrs => !addrs.isEmpty

/-- Go `checkDeviceWithIP(dev)`: resolve the link by name and require a
non-empty address list in every enabled address family. -/
def checkDeviceWithIP (cfg : Config) (env : Env) (dev : String) : Bool :=
  match env.linkByName dev with
  | none => false
  | some l =>
    if cfg.enableIPv4 && !checkLinkAddrs env l netlinkFAMILY_V4 then false
    else if cfg.enableIPv6 && !checkLinkAddrs env l netlinkFAMILY_V6 then false
    else true

/-- The loop body of `deviceFilter.match`: first entry that matches wins. -/
def deviceFilterLoop (cfg : Config) (env : Env) (dev : String) : List String → Bool
  | [] => false
  | entry :: rest =>
    if goEndsWith entry "+" then
      if goStartsWith dev (goTrimRightPlus entry) && checkDeviceWithIP cfg env dev then
        true
      else
        deviceFilterLoop cfg env dev rest
    else if dev == goTrimSpace entry then
      true
    else
      deviceFilterLoop cfg env dev rest

/-- Go `deviceFilter.match(dev)`. -/
def deviceFilterMatch (cfg : Config) (env : Env) (lst : List String) (dev : String) : Bool :=
  if lst.isEmpty then true
  else deviceFilterLoop cfg env dev lst

/-! ## Viability classifier (`isViableDevice`) -/

/-- Go `isViableDevice(l3DevOK, hasDefaultRoute, link)`: whether Cilium
should attach programs to the link.  `filterLst` is `dm.filter`. -/
def isViableDevice (env : Env) (cfg : Config) (filterLst : List String)
    (l3DevOK hasDefaultRoute : Bool) (link : Link) : Bool :=
  -- Do not consider any of the excluded devices.
  if excludedDevicePrefixes.any (fun p => goStartsWith link.name p) then false
  -- Skip devices that have an excluded interface flag set.
  else if link.rawFlags &&& excludedIfFlagsMask != 0 then false
  -- Ignore L3 devices if we cannot support them.
  else if !l3DevOK && !link.hasMacAddr then false
  -- If user specified devices or wildcards, then skip the device if it doesn't match.
  else if !deviceFilterMatch cfg env filterLst link.name then false
  -- Skip veth devices that don't have a default route.
  else if link.typ == "veth" && !hasDefaultRoute then false
  -- Skip bridge devices.
  else if link.typ == "bridge" || link.typ == "openvswitch" then false
  else if link.masterIndex > 0 then
    match env.linkByIndex link.masterIndex with
    | some master =>
      if master.typ == "bridge" || master.typ == "openvswitch" then false
      else if master.typ == "bond" || master.typ == "team" then false
      else true
    | none => true
  else true

/-! ## Wildcard expansion (`expandDeviceWildcards`) -/

/-- Insertion of every matching link name for one wildcard pattern. -/
def expandWildcardLinks (cfg : Config) (env : Env) (prefixStr : String)
    (allLinks : List Link) (acc : DeviceSet) : DeviceSet :=
  allLinks.foldl
    (fun acc link =>
      if goStartsWith link.name prefixStr && checkDeviceWithIP cfg env link.name then
        insertDev link.name acc
      else acc)
    acc

/-- The pattern loop of `expandDeviceWildcards`: wildcard patterns are
expanded against the current links, other patterns inserted verbatim. -/
def expandFold (cfg : Config) (env : Env) (allLinks : List Link)
    (devices : List String) (acc : DeviceSet) : DeviceSet :=
  devices.foldl
    (fun acc iface =>
      if goEndsWith iface "+" then
        expandWildcardLinks cfg env (goTrimRightPlus iface) allLinks acc
      else insertDev iface acc)
    acc

/-- Go `expandDeviceWildcards(devices, option)`. -/
def expandDeviceWildcards (cfg : Config) (env : Env) (devices : List String)
    (optName : String) : Except String (List String) :=
  match env.linkList with
  | none => .error "device wildcard expansion failed to fetch devices"
  | some allLinks =>
    let expandedDevicesMap : DeviceSet := expandFold cfg env allLinks devices []
    if devices.length > 0 && expandedDevicesMap.length == 0 then
      .error ("device wildcard expansion failed to detect devices. Please verify --"
        ++ optName)
    else
      .ok (sortStrings expandedDevicesMap)

/-- Go `expandDevices()`: expand the configured device list and write the
expansion back to the configuration. -/
def expandDevices (env : Env) (s : State) : Except String Unit × State :=
  match expandDeviceWildcards s.config env s.config.devices "devices" with
  | .error e => (.error e, s)
  | .ok expanded => (.ok (), { s with config.devices := expanded })

/-- Go `expandDirectRoutingDevice()`. -/
def expandDirectRoutingDevice (env : Env) (s : State) : Except String Unit × State :=
  if s.config.directRoutingDevice == "" then (.ok (), s)
  else
    match expandDeviceWildcards s.config env [s.config.directRoutingDevice]
        "direct-routing-device" with
    | .error e => (.error e, s)
    | .ok expanded =>
      (.ok (), { s with config.directRoutingDevice := expanded.headD "" })

/-! ## Route aggregation (`updateDevicesFromRoutes`) -/

/-- Update the association list of `linkIndex ↦ hasDefaultRoute`,
OR-ing in `hasDef` (Go map read-modify-write). -/
def updateLinkInfo : List (Int × Bool) → Int → Bool → List (Int × Bool)
  | [], idx, hasDef => [(idx, hasDef)]
  | (i, b) :: rest, idx, hasDef =>
    if i = idx then (i, b || hasDef) :: rest
    else (i, b) :: updateLinkInfo rest idx hasDef

/-- Collect per-link-index info from the route batch, skipping
non-global-unicast destinations and the kernel-local table. -/
def collectLinkInfos (routes : List Route) : List (Int × Bool) :=
  routes.foldl
    (fun acc route =>
      match route.dst with
      | some d =>
        if !d.isGlobalUnicast then acc
        else if route.table = RT_TABLE_LOCAL then acc
        else updateLinkInfo acc route.linkIndex false
      | none =>
        if route.table = RT_TABLE_LOCAL then acc
        else updateLinkInfo acc route.linkIndex true)
    []

/-- Go `updateDevicesFromRoutes(l3DevOK, routes)`: classify each link that
owns a relevant route and add the viable ones to the device set. -/
def updateDevicesFromRoutes (env : Env) (cfg : Config) (filterLst : List String)
    (l3DevOK : Bool) (routes : List Route) (devices : DeviceSet) :
    Bool × DeviceSet :=
  (collectLinkInfos routes).foldl
    (fun (st : Bool × DeviceSet) info =>
      let (changed, devices) := st
      match env.linkByIndex info.1 with
      | none => (changed, devices)
      | some link =>
        -- Skip devices we already know.
        if link.name ∈ devices then (changed, devices)
        else if isViableDevice env cfg filterLst l3DevOK info.2 link then
          (true, insertDev link.name devices)
        else (changed, devices))
    (false, devices)

/-! ## Detection (`Detect` and its helpers) -/

/-- Go `supportL3Dev()`: the `sched_cls` helper map exists and contains
`bpf_skb_change_head`. -/
def supportL3Dev (env : Env) : Bool :=
  match env.schedClsHelpers with
  | some h => h.contains "bpf_skb_change_head"
  | none => false

/-- Go `AreDevicesRequired()`. -/
def areDevicesRequired (cfg : Config) : Bool :=
  cfg.enableNodePort || cfg.enableHostFirewall || cfg.enableBandwidthManager

/-- Go `getDeviceList()`: the sorted projection of the device set. -/
def getDeviceList (devices : DeviceSet) : List String :=
  sortStrings devices

/-- The scan loop of `findK8SNodeIPLink` over the global address list. -/
def findNodeLinkLoop (env : Env) (nodeIP : NetIP) : List GAddr → Except String Link
  | [] => .error "K8s node device not found"
  | a :: rest =>
    if a.ip = nodeIP then
      match env.globalLinkByIndex a.linkIndex with
      | none => .error "link by index failed"
      | some link =>
        -- Skip the host device carrying the node's own IP.
        if link.name == hostDevice then findNodeLinkLoop env nodeIP rest
        else .ok link
    else findNodeLinkLoop env nodeIP rest

/-- Go `findK8SNodeIPLink()`. -/
def findK8SNodeIPLink (env : Env) : Except String Link :=
  match env.k8sNodeIP with
  | none => .error "failed to find K8s node device as node IP is not known"
  | some nodeIP =>
    let family := if nodeIP.isV4 then netlinkFAMILY_V4 else netlinkFAMILY_V6
    match env.globalAddrList family with
    | none => .error "K8s node device not found"
    | some addrs => findNodeLinkLoop env nodeIP addrs

/-- The device-detection step of `Detect` (lines 103–122): either derive
devices from the routing table or seed them from the configured list. -/
def detectionStep (env : Env) (l3DevOK : Bool) (s : State) :
    Except String Unit × State :=
  if s.config.devices.isEmpty && areDevicesRequired s.config then
    let family :=
      if s.config.enableIPv4 && !s.config.enableIPv6 then netlinkFAMILY_V4
      else if !s.config.enableIPv4 && s.config.enableIPv6 then netlinkFAMILY_V6
      else netlinkFAMILY_ALL
    match env.routeList family with
    | none => (.error "cannot retrieve routes for device detection", s)
    | some routes =>
      let devices :=
        (updateDevicesFromRoutes env s.config s.filter l3DevOK routes s.devices).2
      (.ok (), { s with devices := devices })
  else
    (.ok (),
      { s with devices := s.config.devices.foldl (fun d dev => insertDev dev d) s.devices })

/-- The tail of the direct-routing / multicast resolution (after the
Kubernetes node link has been consulted). -/
def resolveSpecialDevices (detectDirectRoutingDev detectIPv6MCastDev : Bool)
    (k8sNodeDev : String) (k8sNodeLink : Option Link) (s : State) :
    Except String Unit × State :=
  let step1 : Except String Unit × State :=
    if detectDirectRoutingDev then
      -- If only one device found, use that one. Otherwise use the device with k8s node IP.
      if s.devices.length = 1 then
        (.ok (), { s with config.directRoutingDevice := (getDeviceList s.devices).headD "" })
      else if k8sNodeDev != "" then
        (.ok (), { s with config.directRoutingDevice := k8sNodeDev })
      else
        (.error "unable to determine direct routing device", s)
    else (.ok (), s)
  match step1 with
  | (.error e, s) => (.error e, s)
  | (.ok _, s) =>
    if detectIPv6MCastDev then
      match k8sNodeLink with
      | some l =>
        if l.flags &&& netFlagMulticast != 0 then
          (.ok (), { s with config.ipv6MCastDevice := k8sNodeDev })
        else (.error "unable to determine Multicast device", s)
      | none => (.error "unable to determine Multicast device", s)
    else (.ok (), s)

/-- The direct-routing / multicast step of `Detect` (lines 124–172). -/
def specialDevicesStep (env : Env) (s : State) : Except String Unit × State :=
  let detectDirectRoutingDev := s.config.directRoutingDeviceRequired
  let (s, detectDirectRoutingDev) :=
    if s.config.directRoutingDeviceRequired && s.config.directRoutingDevice != "" then
      ({ s with devices := insertDev s.config.directRoutingDevice s.devices }, false)
    else (s, detectDirectRoutingDev)
  let detectIPv6MCastDev := s.config.enableIPv6NDP
  let (s, detectIPv6MCastDev) :=
    if s.config.ipv6MCastDevice != "" then
      ({ s with devices := insertDev s.config.ipv6MCastDevice s.devices }, false)
    else (s, detectIPv6MCastDev)
  if detectDirectRoutingDev || detectIPv6MCastDev then
    match findK8SNodeIPLink env with
    | .ok link =>
      let k8sNodeDev := link.name
      let s := { s with devices := insertDev k8sNodeDev s.devices }
      resolveSpecialDevices detectDirectRoutingDev detectIPv6MCastDev
        k8sNodeDev (some link) s
    | .error e =>
      if env.k8sEnabled then
        (.error ("k8s is enabled, but still failed to find node IP: " ++ e), s)
      else
        resolveSpecialDevices detectDirectRoutingDev detectIPv6MCastDev "" none s
  else (.ok (), s)

/-- Go `Detect()`: one-shot device detection.  Returns the sorted device
list or an error, together with the state after the call (the Go code
mutates `dm.devices` and `option.Config` in place, so mutations made
before a failure point persist). -/
def Detect (env : Env) (s0 : State) : Except String (List String) × State :=
  let s := { s0 with devices := ([] : DeviceSet) }
  match expandDevices env s with
  | (.error e, s) => (.error e, s)
  | (.ok _, s) =>
    match expandDirectRoutingDevice env s with
    | (.error e, s) => (.error e, s)
    | (.ok _, s) =>
      let l3DevOK := if !s.config.enableHostLegacyRouting then supportL3Dev env else true
      match detectionStep env l3DevOK s with
      | (.error e, s) => (.error e, s)
      | (.ok _, s) =>
        match specialDevicesStep env s with
        | (.error e, s) => (.error e, s)
        | (.ok _, s) =>
          let deviceList := getDeviceList s.devices
          (.ok deviceList, { s with config.devices := deviceList })

/-! ## Dynamic devices (`ReadDynamicDevices`) -/

/-- Go `DynamicDevicePath` (the fixed well-known directory). -/
def DynamicDevicePath : String := "/etc/dynamic-devices"

/-- Go `ReadDynamicDevices()`: one wildcard pattern per non-directory child
of the dynamic-device directory; a missing path or a non-directory path
yields an empty list without error.  The `os.ReadDir` error is ignored
by the Go code, so a failed directory read also yields an empty list. -/
def ReadDynamicDevices (env : Env) : Except String (List String) :=
  match env.statDynamicPath with
  | .errNotExist => .ok []
  | .errOther => .error "stat failed"
  | .found isDir =>
    if !isDir then .ok []
    else
      let files := env.readDirDynamicPath.getD []
      .ok ((files.filter (fun f => !f.isDir)).map (fun f => f.name ++ "+"))

/-! ## TC filter auditor (`tcFiltersLost`) -/

/-- Whether a BPF filter name is one of the recognized datapath
programs. -/
def isRecognizedFilter : TcFilter → Bool
  | .bpf name =>
    goContains name "bpf_netdev" || goContains name "bpf_network" ||
    goContains name "bpf_host" || goContains name "bpf_lxc" ||
    goContains name "bpf_overlay"
  | .other => false

/-- Go `tcFiltersLost(link)`: both hook points list successfully and neither
contains a recognized BPF filter.  The loop returns `false` at the first
listing error. -/
def tcFiltersLost (env : Env) (link : Link) : Bool :=
  match env.filterList link.name tcFilterParentIngress with
  | none => false
  | some ingressFilters =>
    match env.filterList link.name tcFilterParentEgress with
    | none => false
    | some egressFilters =>
      ((ingressFilters ++ egressFilters).filter isRecognizedFilter).isEmpty

/-! ## Static device check (`checkStaticDevices`) -/

/-- The effective filter pattern list: the union (as a sorted string
set, `sets.NewString(...).List()`) of the configured patterns and the
dynamically discovered ones; a dynamic-read error contributes nothing. -/
def effectiveDeviceConfigs (env : Env) : List String :=
  let dynamicDeviceConfigs :=
    match ReadDynamicDevices env with
    | .error _ => []
    | .ok ds => ds
  sortStrings
    ((env.viperDevices ++ dynamicDeviceConfigs).foldl (fun acc d => insertDev d acc) [])

/-- Whether a name has an excluded device prefix. -/
def hasExcludedPrefix (name : String) : Bool :=
  excludedDevicePrefixes.any (fun p => goStartsWith name p)

/-- State of the per-link scan loop of `checkStaticDevices`: the device
set, the `currentExistOnHost` map (most recent binding first), and the
`changed` flag. -/
structure ScanState where
  devices : DeviceSet
  exist : List (String × Link)
  changed : Bool

/-- Lookup in the `currentExistOnHost` map (Go map access, most recent
binding first). -/
def lookupDev (n : String) : List (String × Link) → Option Link
  | [] => none
  | (k, v) :: rest => if n = k then some v else lookupDev n rest

/-- One iteration of the per-link scan loop of `checkStaticDevices`. -/
def scanLink (cfg : Config) (env : Env) (filterLst : List String)
    (st : ScanState) (link : Link) : ScanState :=
  if !deviceFilterMatch cfg env filterLst link.name || hasExcludedPrefix link.name then
    -- remove devices that no longer pass the filter or are excluded
    if link.name ∈ st.devices then
      { st with devices := st.devices.erase link.name, changed := true }
    else st
  else
    if link.name ∉ st.devices then
      -- configuration lost: re-add
      { devices := insertDev link.name st.devices,
        exist := (link.name, link) :: st.exist, changed := true }
    else if tcFiltersLost env link then
      -- tc filters lost: re-publish without removing
      { devices := st.devices, exist := (link.name, link) :: st.exist, changed := true }
    else
      { st with exist := (link.name, link) :: st.exist }

/-- The vanished-device pass: untrack every device absent from
`currentExistOnHost`. -/
def removeVanished (exist : List (String × Link)) (devices : DeviceSet)
    (changed : Bool) : DeviceSet × Bool :=
  (devices.filter (fun n => (lookupDev n exist).isSome),
   changed || devices.any (fun n => (lookupDev n exist).isNone))

/-- The address-change pass: a tracked device whose current primary
(non-secondary, non-deprecated) IPv4 addresses do not include the
previously recorded masquerade address counts as changed.  Devices with
no recorded address, a failed lookup or a failed listing are skipped.
(After the vanished-device pass every tracked device has an entry in
`exist`, so the `none` lookup branch is unreachable; see the invariant
theorems below.) -/
def addrCheckChanged (env : Env) (exist : List (String × Link))
    (devices : DeviceSet) : Bool :=
  (getDeviceList devices).any (fun name =>
    match env.masqIPv4Addrs name with
    | none => false
    | some oldAddr =>
      match lookupDev name exist with
      | none => false
      | some l =>
        match env.addrList l.name netlinkFAMILY_V4 with
        | none => false
        | some addrs =>
          !(addrs.any (fun a =>
            (a.flags &&& (IFA_F_SECONDARY ||| IFA_F_DEPRECATED)) == 0 && a.ip == oldAddr)))

/-- Go `checkStaticDevices()`: the body of one reconciliation tick.
Returns the `changed` flag and the updated device set. -/
def checkStaticDevices (cfg : Config) (env : Env) (devices : DeviceSet) :
    Bool × DeviceSet :=
  match env.linkList with
  | none => (false, devices)
  | some allLinks =>
    let filterLst := effectiveDeviceConfigs env
    if filterLst.isEmpty then (false, devices)
    else
      let st := allLinks.foldl (scanLink cfg env filterLst) ⟨devices, [], false⟩
      let (devices2, changed2) := removeVanished st.exist st.devices st.changed
      (changed2 || addrCheckChanged env st.exist devices2, devices2)

/-! ## Claim-side definitions

These render the wording of the specification claims, to be compared
with the definitions translated from the source above. -/

/-- Spec wording of a link currently carrying at least one address in an
address family: the address listing for it is non-empty. -/
def carriesAddrInFamily (env : Env) (l : Link) (family : Nat) : Bool :=
  (env.addrList l.name family).elim false (fun addrs => !addrs.isEmpty)

/-- Spec wording of the address-family gate (§4.1): the named device
resolves to a link that currently carries at least one address in every
globally enabled address family (IPv4/IPv6). -/
def carriesAddrInEnabledFamilies (cfg : Config) (env : Env) (dev : String) : Bool :=
  match env.linkByName dev with
  | none => false
  | some l =>
    (!cfg.enableIPv4 || carriesAddrInFamily env l netlinkFAMILY_V4) &&
    (!cfg.enableIPv6 || carriesAddrInFamily env l netlinkFAMILY_V6)

/-- Spec wording of one pattern matching a name (§4.1): a wildcard
pattern matches by stripped-prefix plus the address-family gate, an
exact pattern by string equality after trimming whitespace. -/
def patternMatchesClaim (cfg : Config) (env : Env) (dev entry : String) : Bool :=
  if goEndsWith entry "+" then
    goStartsWith dev (goTrimRightPlus entry) && carriesAddrInEnabledFamilies cfg env dev
  else dev == goTrimSpace entry

/-- Spec wording of the master rule (§4.2 rule 6): the link has a master
that resolves to a bridge, openvswitch, bond or team device. -/
def masterResolvesToExcluded (env : Env) (link : Link) : Bool :=
  decide (link.masterIndex > 0) &&
    (match env.linkByIndex link.masterIndex with
     | some master =>
       master.typ == "bridge" || master.typ == "openvswitch" ||
       master.typ == "bond" || master.typ == "team"
     | none => false)

/-- Spec wording of the viability rules (§4.2), applied in order with the
first rejection short-circuiting. -/
def isViableDeviceClaim (env : Env) (cfg : Config) (filterLst : List String)
    (l3Capable hasDefaultRoute : Bool) (link : Link) : Bool :=
  -- 1. reserved/excluded name prefix
  if excludedDevicePrefixes.any (fun p => goStartsWith link.name p) then false
  -- 2. kernel flags include slave or loopback
  else if (link.rawFlags &&& IFF_SLAVE != 0) || (link.rawFlags &&& IFF_LOOPBACK != 0) then
    false
  -- 3. no L3 support and no MAC address
  else if !l3Capable && !link.hasMacAddr then false
  -- 4. device filter rejects the name
  else if !deviceFilterMatch cfg env filterLst link.name then false
  -- 5. type rule: veth without default route; bridge-like types
  else if link.typ == "veth" && !hasDefaultRoute then false
  else if link.typ == "bridge" || link.typ == "openvswitch" then false
  -- 6. master rule
  else if masterResolvesToExcluded env link then false
  else true

/-- Spec wording of membership in the wildcard expansion (§4.4): a name
belongs to the expansion when some configured pattern yields it, either
verbatim (non-wildcard) or as a currently existing link name with the
stripped prefix passing the address-family gate. -/
def expandClaimMember (cfg : Config) (env : Env) (devices : List String)
    (allLinks : List Link) (n : String) : Prop :=
  ∃ iface ∈ devices,
    (goEndsWith iface "+" = false ∧ n = iface) ∨
    (goEndsWith iface "+" = true ∧
      ∃ link ∈ allLinks, link.name = n ∧
        goStartsWith link.name (goTrimRightPlus iface) = true ∧
        carriesAddrInEnabledFamilies cfg env link.name = true)

/-! ## Concrete inputs for witnesses and counterexamples -/

/-- A configuration with IPv4 only, node-port enabled and nothing else. -/
def baseConfig : Config where
  devices := []
  directRoutingDevice := ""
  ipv6MCastDevice := ""
  enableIPv4 := true
  enableIPv6 := false
  enableHostLegacyRouting := true
  enableNodePort := true
  enableHostFirewall := false
  enableBandwidthManager := false
  enableIPv6NDP := false
  directRoutingDeviceRequired := false

/-- An environment where every call fails or returns nothing. -/
def baseEnv : Env where
  linkList := some []
  linkByIndex := fun _ => none
  linkByName := fun _ => none
  addrList := fun _ _ => none
  routeList := fun _ => none
  filterList := fun _ _ => none
  schedClsHelpers := none
  k8sEnabled := false
  k8sNodeIP := none
  globalAddrList := fun _ => none
  globalLinkByIndex := fun _ => none
  masqIPv4Addrs := fun _ => none
  viperDevices := []
  statDynamicPath := .errNotExist
  readDirDynamicPath := none

/-- A plain ethernet-like link. -/
def eth0Link : Link where
  name := "eth0"
  typ := "device"
  rawFlags := 0
  flags := 0
  hasMacAddr := true
  masterIndex := 0

/-- A state that tracks one device from an earlier detection, with
device detection required and no explicit device list. -/
def c4State : State where
  devices := ["eth0"]
  filter := []
  config := baseConfig

/-- A state whose explicit device list names the loopback interface. -/
def c5State : State where
  devices := []
  filter := ["lo"]
  config := { baseConfig with devices := ["lo"] }

/-- An environment whose dynamic-device directory exists and contains a
single child that is itself a directory. -/
def c9Env : Env :=
  { baseEnv with
    statDynamicPath := .found true
    readDirDynamicPath := some [⟨"eth", true⟩] }

/-- An environment whose dynamic-device directory contains one regular
file and one subdirectory. -/
def c9WitnessEnv : Env :=
  { baseEnv with
    statDynamicPath := .found true
    readDirDynamicPath := some [⟨"ens3", false⟩, ⟨"sub", true⟩] }

/-- An environment with one host link named eth0, that link configured
as a static device, and empty traffic-control filter listings. -/
def c6Env : Env :=
  { baseEnv with
    linkList := some [eth0Link]
    viperDevices := ["eth0"]
    filterList := fun _ _ => some [] }

/-- A state with an explicit configured device list, as for claim C8. -/
def c8State : State where
  devices := []
  filter := ["eth0"]
  config := { baseConfig with devices := ["eth0"] }

/-! ## Proof infrastructure: the string order -/

theorem char_toNat_inj {a b : Char} (h : a.toNat = b.toNat) : a = b := by
  apply Char.ext
  unfold Char.toNat at h
  exact UInt32.toNat.inj h

theorem charListLe_total (a b : List Char) :
    charListLe a b = true ∨ charListLe b a = true := by
  induction a generalizing b with
  | nil => left; rfl
  | cons x xs ih =>
    cases b with
    | nil => right; rfl
    | cons y ys =>
      by_cases h1 : x.toNat < y.toNat
      · left; simp [charListLe, h1]
      · by_cases h2 : y.toNat < x.toNat
        · right; simp [charListLe, h1, h2]
        · rcases ih ys with h | h <;> [left; right] <;> simp [charListLe, h1, h2, h]

theorem charListLe_cons_iff (x y : Char) (xs ys : List Char) :
    charListLe (x :: xs) (y :: ys) = true ↔
      x.toNat < y.toNat ∨ (x.toNat = y.toNat ∧ charListLe xs ys = true) := by
  simp only [charListLe]
  by_cases h1 : x.toNat < y.toNat
  · simp [h1]
  · by_cases h2 : y.toNat < x.toNat
    · simp only [if_neg h1, if_pos h2]
      constructor
      · intro h
        cases h
      · rintro (h | ⟨h, _⟩) <;> omega
    · have he : x.toNat = y.toNat := by omega
      simp [h1, h2, he]

theorem charListLe_trans {a b c : List Char} (h1 : charListLe a b = true)
    (h2 : charListLe b c = true) : charListLe a c = true := by
  induction a generalizing b c with
  | nil => rfl
  | cons x xs ih =>
    cases b with
    | nil => simp [charListLe] at h1
    | cons y ys =>
      cases c with
      | nil => simp [charListLe] at h2
      | cons z zs =>
        rw [charListLe_cons_iff] at h1 h2 ⊢
        rcases h1 with h1 | ⟨e1, l1⟩ <;> rcases h2 with h2 | ⟨e2, l2⟩
        · left; omega
        · left; omega
        · left; omega
        · exact Or.inr ⟨e1.trans e2, ih l1 l2⟩

theorem charListLe_antisymm {a b : List Char} (h1 : charListLe a b = true)
    (h2 : charListLe b a = true) : a = b := by
  induction a generalizing b with
  | nil =>
    cases b with
    | nil => rfl
    | cons y ys => simp [charListLe] at h2
  | cons x xs ih =>
    cases b with
    | nil => simp [charListLe] at h1
    | cons y ys =>
      rw [charListLe_cons_iff] at h1 h2
      rcases h1 with h1 | ⟨e1, l1⟩ <;> rcases h2 with h2 | ⟨e2, l2⟩
      · omega
      · omega
      · omega
      · rw [char_toNat_inj e1, ih l1 l2]

instance : IsTotal String strLeRel :=
  ⟨fun a b => charListLe_total a.toList b.toList⟩

instance : IsTrans String strLeRel :=
  ⟨fun _ _ _ h1 h2 => charListLe_trans h1 h2⟩

instance : IsAntisymm String strLeRel := by
  refine ⟨fun a b h1 h2 => ?_⟩
  cases a
  cases b
  exact congrArg String.mk (charListLe_antisymm h1 h2)

theorem sortStrings_perm (l : List String) : (sortStrings l).Perm l :=
  List.perm_insertionSort strLeRel l

theorem mem_sortStrings {a : String} {l : List String} :
    a ∈ sortStrings l ↔ a ∈ l :=
  (sortStrings_perm l).mem_iff

theorem sortStrings_sorted (l : List String) : List.Sorted strLeRel (sortStrings l) :=
  List.sorted_insertionSort strLeRel l

theorem sortStrings_nodup {l : List String} (h : l.Nodup) : (sortStrings l).Nodup :=
  ((sortStrings_perm l).nodup_iff).mpr h

theorem sortStrings_eq_self {l : List String} (h : List.Sorted strLeRel l) :
    sortStrings l = l :=
  List.eq_of_perm_of_sorted (sortStrings_perm l) (sortStrings_sorted l) h

/-! ## Proof infrastructure: the device set -/

theorem mem_insertDev {a b : String} {l : DeviceSet} :
    a ∈ insertDev b l ↔ a = b ∨ a ∈ l := by
  unfold insertDev
  split
  · rename_i hb
    constructor
    · exact Or.inr
    · rintro (rfl | h) <;> [exact hb; exact h]
  · simp [or_comm]

theorem insertDev_nodup {b : String} {l : DeviceSet} (h : l.Nodup) :
    (insertDev b l).Nodup := by
  unfold insertDev
  split
  · exact h
  · rename_i hb
    exact List.Nodup.append h (List.nodup_singleton b) (List.disjoint_singleton.mpr hb)

theorem foldl_insertDev_of_nodup {l acc : List String} (h : (acc ++ l).Nodup) :
    l.foldl (fun a d => insertDev d a) acc = acc ++ l := by
  induction l generalizing acc with
  | nil => simp
  | cons x xs ih =>
    have hx : x ∉ acc := by
      intro hmem
      exact (List.disjoint_of_nodup_append h) hmem (List.mem_cons_self x xs)
    have : insertDev x acc = acc ++ [x] := by
      unfold insertDev
      simp [hx]
    rw [List.foldl_cons, this, ih (by simpa using h)]
    simp

/-! ## Proof infrastructure: the device filter -/

theorem ite_and_not_gate (v4 v6 a4 a6 : Bool) :
    (if v4 && !a4 then false else if v6 && !a6 then false else true) =
      ((!v4 || a4) && (!v6 || a6)) := by
  cases v4 <;> cases v6 <;> cases a4 <;> cases a6 <;> rfl

theorem checkLinkAddrs_eq_carriesFamily (env : Env) (l : Link) (family : Nat) :
    checkLinkAddrs env l family = carriesAddrInFamily env l family := by
  unfold checkLinkAddrs carriesAddrInFamily
  cases env.addrList l.name family <;> rfl

theorem checkDeviceWithIP_eq_carries (cfg : Config) (env : Env) (dev : String) :
    checkDeviceWithIP cfg env dev = carriesAddrInEnabledFamilies cfg env dev := by
  unfold checkDeviceWithIP carriesAddrInEnabledFamilies
  cases env.linkByName dev with
  | none => rfl
  | some l =>
    dsimp only
    rw [← checkLinkAddrs_eq_carriesFamily, ← checkLinkAddrs_eq_carriesFamily]
    exact ite_and_not_gate cfg.enableIPv4 cfg.enableIPv6
      (checkLinkAddrs env l netlinkFAMILY_V4) (checkLinkAddrs env l netlinkFAMILY_V6)

theorem deviceFilterLoop_eq_any (cfg : Config) (env : Env) (dev : String)
    (lst : List String) :
    deviceFilterLoop cfg env dev lst = lst.any (patternMatchesClaim cfg env dev) := by
  induction lst with
  | nil => rfl
  | cons entry rest ih =>
    rw [List.any_cons, ← ih]
    simp only [deviceFilterLoop]
    by_cases hw : goEndsWith entry "+" = true
    · have hpm : patternMatchesClaim cfg env dev entry =
          (goStartsWith dev (goTrimRightPlus entry) && checkDeviceWithIP cfg env dev) := by
        unfold patternMatchesClaim
        rw [if_pos hw, checkDeviceWithIP_eq_carries]
      rw [if_pos hw, hpm]
      cases hgp : (goStartsWith dev (goTrimRightPlus entry) &&
          checkDeviceWithIP cfg env dev) <;> simp
    · have hpm : patternMatchesClaim cfg env dev entry = (dev == goTrimSpace entry) := by
        unfold patternMatchesClaim
        rw [if_neg hw]
      rw [if_neg hw, hpm]
      cases hgp : (dev == goTrimSpace entry) <;> simp

/-- C2: `deviceFilter.match` accepts every name on an empty pattern list;
on a non-empty list it accepts exactly when some pattern matches — a
wildcard pattern by stripped prefix plus the address-family gate (the
device resolves and carries an address in every enabled family), an
exact pattern by equality with the whitespace-trimmed pattern — and
rejects when no pattern matches. -/
theorem c2_deviceFilter_match_characterization (cfg : Config) (env : Env)
    (lst : List String) (dev : String) :
    deviceFilterMatch cfg env lst dev =
      (lst.isEmpty || lst.any (patternMatchesClaim cfg env dev)) := by
  unfold deviceFilterMatch
  by_cases h : lst.isEmpty = true
  · rw [if_pos h, h]
    rfl
  · simp only [Bool.not_eq_true] at h
    rw [if_neg (by simp [h]), h, deviceFilterLoop_eq_any]
    rfl

/-! ## Proof infrastructure: interface-flag mask -/

theorem nat_lor_eq_zero {a b : Nat} : a ||| b = 0 ↔ a = 0 ∧ b = 0 := by
  constructor
  · intro h
    refine ⟨Nat.eq_of_testBit_eq fun i => ?_, Nat.eq_of_testBit_eq fun i => ?_⟩ <;>
      · have hb := congrArg (fun n => Nat.testBit n i) h
        simp only [Nat.testBit_or, Nat.zero_testBit, Bool.or_eq_false_iff] at hb
        simp [hb.1, hb.2]
  · rintro ⟨rfl, rfl⟩
    rfl

theorem nat_lor_bne_zero (a b : Nat) : (a ||| b != 0) = ((a != 0) || (b != 0)) := by
  rw [Bool.eq_iff_iff]
  simp only [bne_iff_ne, ne_eq, Bool.or_eq_true, nat_lor_eq_zero, not_and_or]

theorem flags_mask_split (r : Nat) :
    (r &&& excludedIfFlagsMask != 0) =
      ((r &&& IFF_SLAVE != 0) || (r &&& IFF_LOOPBACK != 0)) := by
  unfold excludedIfFlagsMask
  rw [Nat.and_or_distrib_left, nat_lor_bne_zero]

/-- C1: the viability classifier applies exactly the claimed ordered
rules — excluded name prefixes, slave/loopback flags, the L3/MAC gate,
the device filter, the veth default-route rule, the bridge-like type
rule and the master-device rule — and accepts any link surviving all of
them (`isViableDeviceClaim` renders the claim's rule list verbatim). -/
theorem c1_isViableDevice_rules (env : Env) (cfg : Config) (filterLst : List String)
    (l3DevOK hasDefaultRoute : Bool) (link : Link) :
    isViableDevice env cfg filterLst l3DevOK hasDefaultRoute link =
      isViableDeviceClaim env cfg filterLst l3DevOK hasDefaultRoute link := by
  unfold isViableDevice isViableDeviceClaim masterResolvesToExcluded
  rw [flags_mask_split]
  cases h1 : excludedDevicePrefixes.any (fun p => goStartsWith link.name p)
  case true => rfl
  case false =>
  cases h2 : (link.rawFlags &&& IFF_SLAVE != 0) || (link.rawFlags &&& IFF_LOOPBACK != 0)
  case true => rfl
  case false =>
  cases h3 : !l3DevOK && !link.hasMacAddr
  case true => rfl
  case false =>
  cases h4 : !deviceFilterMatch cfg env filterLst link.name
  case true => rfl
  case false =>
  cases h5 : link.typ == "veth" && !hasDefaultRoute
  case true => rfl
  case false =>
  cases h6 : link.typ == "bridge" || link.typ == "openvswitch"
  case true => rfl
  case false =>
  by_cases hm : link.masterIndex > 0
  · rw [if_pos hm]
    simp only [decide_eq_true hm, Bool.true_and]
    cases hL : env.linkByIndex link.masterIndex with
    | none => rfl
    | some master =>
      cases cb1 : master.typ == "bridge" <;>
        cases cb2 : master.typ == "openvswitch" <;>
        cases cb3 : master.typ == "bond" <;>
        cases cb4 : master.typ == "team" <;> simp [cb1, cb2, cb3, cb4]
  · rw [if_neg hm, decide_eq_false hm, Bool.false_and]
    rfl

/-! ## Proof infrastructure: wildcard expansion -/

theorem mem_expandWildcardLinks {cfg : Config} {env : Env} {pre : String}
    {allLinks : List Link} {acc : DeviceSet} {n : String} :
    n ∈ expandWildcardLinks cfg env pre allLinks acc ↔
      n ∈ acc ∨ ∃ link ∈ allLinks, link.name = n ∧
        goStartsWith link.name pre = true ∧ checkDeviceWithIP cfg env link.name = true := by
  induction allLinks generalizing acc with
  | nil => simp [expandWildcardLinks]
  | cons link rest ih =>
    unfold expandWildcardLinks at ih ⊢
    rw [List.foldl_cons]
    by_cases hc : (goStartsWith link.name pre && checkDeviceWithIP cfg env link.name) = true
    · rw [if_pos hc, ih]
      rw [Bool.and_eq_true] at hc
      simp only [mem_insertDev, List.mem_cons]
      constructor
      · rintro ((rfl | h) | ⟨l, hl, hrest⟩)
        · exact Or.inr ⟨link, Or.inl rfl, rfl, hc.1, hc.2⟩
        · exact Or.inl h
        · exact Or.inr ⟨l, Or.inr hl, hrest⟩
      · rintro (h | ⟨l, (rfl | hl), hrest⟩)
        · exact Or.inl (Or.inr h)
        · exact Or.inl (Or.inl hrest.1.symm)
        · exact Or.inr ⟨l, hl, hrest⟩
    · rw [if_neg hc, ih]
      simp only [List.mem_cons]
      constructor
      · rintro (h | ⟨l, hl, hrest⟩)
        · exact Or.inl h
        · exact Or.inr ⟨l, Or.inr hl, hrest⟩
      · rintro (h | ⟨l, (rfl | hl), hrest⟩)
        · exact Or.inl h
        · exact absurd (by rw [hrest.2.1, hrest.2.2]; rfl) hc
        · exact Or.inr ⟨l, hl, hrest⟩

theorem mem_expandFold {cfg : Config} {env : Env} {allLinks : List Link}
    {devices : List String} {acc : DeviceSet} {n : String} :
    n ∈ expandFold cfg env allLinks devices acc ↔
      n ∈ acc ∨ ∃ iface ∈ devices,
        (goEndsWith iface "+" = false ∧ n = iface) ∨
        (goEndsWith iface "+" = true ∧
          ∃ link ∈ allLinks, link.name = n ∧
            goStartsWith link.name (goTrimRightPlus iface) = true ∧
            checkDeviceWithIP cfg env link.name = true) := by
  induction devices generalizing acc with
  | nil => simp [expandFold]
  | cons iface rest ih =>
    unfold expandFold at ih ⊢
    rw [List.foldl_cons]
    by_cases hw : goEndsWith iface "+" = true
    · rw [if_pos hw, ih, mem_expandWildcardLinks]
      simp only [List.mem_cons]
      constructor
      · rintro ((h | hwild) | ⟨i, hi, hrest⟩)
        · exact Or.inl h
        · exact Or.inr ⟨iface, Or.inl rfl, Or.inr ⟨hw, hwild⟩⟩
        · exact Or.inr ⟨i, Or.inr hi, hrest⟩
      · rintro (h | ⟨i, hmem, hcase⟩)
        · exact Or.inl (Or.inl h)
        · rcases hmem with rfl | hi
          · rcases hcase with ⟨hnw, _⟩ | ⟨_, hwild⟩
            · rw [hw] at hnw
              cases hnw
            · exact Or.inl (Or.inr hwild)
          · exact Or.inr ⟨i, hi, hcase⟩
    · rw [if_neg hw, ih]
      simp only [Bool.not_eq_true] at hw
      simp only [mem_insertDev, List.mem_cons]
      constructor
      · rintro (h | ⟨i, hi, hrest⟩)
        · rcases h with he | h
          · exact Or.inr ⟨iface, Or.inl rfl, Or.inl ⟨hw, he⟩⟩
          · exact Or.inl h
        · exact Or.inr ⟨i, Or.inr hi, hrest⟩
      · rintro (h | ⟨i, hmem, hcase⟩)
        · exact Or.inl (Or.inr h)
        · rcases hmem with rfl | hi
          · rcases hcase with ⟨_, rfl⟩ | ⟨hww, _⟩
            · exact Or.inl (Or.inl rfl)
            · rw [hw] at hww
              cases hww
          · exact Or.inr ⟨i, hi, hcase⟩

theorem expandWildcardLinks_nodup {cfg : Config} {env : Env} {pre : String}
    {allLinks : List Link} {acc : DeviceSet} (h : acc.Nodup) :
    (expandWildcardLinks cfg env pre allLinks acc).Nodup := by
  induction allLinks generalizing acc with
  | nil => exact h
  | cons link rest ih =>
    unfold expandWildcardLinks at ih ⊢
    rw [List.foldl_cons]
    split
    · exact ih (insertDev_nodup h)
    · exact ih h

theorem expandFold_nodup {cfg : Config} {env : Env} {allLinks : List Link}
    {devices : List String} {acc : DeviceSet} (h : acc.Nodup) :
    (expandFold cfg env allLinks devices acc).Nodup := by
  induction devices generalizing acc with
  | nil => exact h
  | cons iface rest ih =>
    unfold expandFold at ih ⊢
    rw [List.foldl_cons]
    split
    · exact ih (expandWildcardLinks_nodup h)
    · exact ih (insertDev_nodup h)

theorem mem_expandFold_iff_claim {cfg : Config} {env : Env} {allLinks : List Link}
    {devices : List String} {n : String} :
    n ∈ expandFold cfg env allLinks devices [] ↔
      expandClaimMember cfg env devices allLinks n := by
  rw [mem_expandFold]
  unfold expandClaimMember
  simp only [List.not_mem_nil, false_or, checkDeviceWithIP_eq_carries]

/-- C3: wildcard expansion passes non-wildcard patterns through verbatim,
expands each wildcard pattern to the current link names with the stripped
prefix passing the address-family gate, and returns the union
deduplicated and sorted; a non-empty pattern list whose expansion is
empty yields an error instead of a device list. -/
theorem c3_expandDeviceWildcards (cfg : Config) (env : Env) (devices : List String)
    (optName : String) (allLinks : List Link) (h : env.linkList = some allLinks) :
    (∀ res, expandDeviceWildcards cfg env devices optName = .ok res →
        List.Sorted strLeRel res ∧ res.Nodup ∧
        (∀ n, n ∈ res ↔ expandClaimMember cfg env devices allLinks n)) ∧
    ((∃ e, expandDeviceWildcards cfg env devices optName = .error e) ↔
        (devices ≠ [] ∧ ∀ n, ¬ expandClaimMember cfg env devices allLinks n)) := by
  unfold expandDeviceWildcards
  rw [h]
  dsimp only
  by_cases hguard : (decide (devices.length > 0) &&
      ((expandFold cfg env allLinks devices []).length == 0)) = true
  · rw [if_pos hguard]
    rw [Bool.and_eq_true, decide_eq_true_eq, beq_iff_eq] at hguard
    constructor
    · rintro res hres
      cases hres
    · constructor
      · rintro ⟨e, _⟩
        refine ⟨fun hnil => by simp [hnil] at hguard, fun n hn => ?_⟩
        have hn2 := mem_expandFold_iff_claim.mpr hn
        rw [List.length_eq_zero.mp hguard.2] at hn2
        cases hn2
      · rintro ⟨_, _⟩
        exact ⟨_, rfl⟩
  · rw [if_neg hguard]
    rw [Bool.and_eq_true, decide_eq_true_eq, beq_iff_eq, not_and] at hguard
    constructor
    · rintro res hres
      injection hres with hres
      subst hres
      refine ⟨sortStrings_sorted _, sortStrings_nodup (expandFold_nodup List.nodup_nil),
        fun n => ?_⟩
      rw [mem_sortStrings, mem_expandFold_iff_claim]
    · constructor
      · rintro ⟨e, he⟩
        cases he
      · rintro ⟨hne, hnone⟩
        exfalso
        have hlen := hguard (List.length_pos.mpr hne)
        have hfold : expandFold cfg env allLinks devices [] ≠ [] := by
          intro hnil
          exact hlen (by simp [hnil])
        rcases List.exists_mem_of_ne_nil _ hfold with ⟨n, hn⟩
        exact hnone n (mem_expandFold_iff_claim.mp hn)

/-- Witness for C3 at a concrete input: a single exact pattern on a host
with no links expands to exactly that name. -/
theorem c3_expandDeviceWildcards_witness :
    List.Sorted strLeRel ["eth0"] ∧ (["eth0"] : List String).Nodup ∧
      (∀ n, n ∈ (["eth0"] : List String) ↔
        expandClaimMember baseConfig baseEnv ["eth0"] [] n) :=
  (c3_expandDeviceWildcards baseConfig baseEnv ["eth0"] "devices" [] rfl).1 ["eth0"] rfl

/-! ## Claim C9: dynamic device patterns -/

/-- C9 counterexample: the dynamic-device directory exists and has one
immediate child entry named eth, yet `ReadDynamicDevices` returns the
empty pattern list — the claimed pattern eth+ is absent, because the
code skips child entries that are directories. -/
theorem c9_counterexample :
    ReadDynamicDevices c9Env = .ok [] ∧
      c9Env.readDirDynamicPath = some [⟨"eth", true⟩] ∧
      "eth+" ∉ ([] : List String) :=
  ⟨rfl, rfl, by decide⟩

/-- C9 (amended): `ReadDynamicDevices` returns, without error, one
wildcard pattern childname+ for each immediate non-directory child entry
of the fixed directory (child directories are skipped); a missing path
or a path that is not a directory yields an empty list and no error. -/
theorem c9_readDynamicDevices (env : Env) :
    (env.statDynamicPath = .errNotExist → ReadDynamicDevices env = .ok []) ∧
    (env.statDynamicPath = .found false → ReadDynamicDevices env = .ok []) ∧
    (∀ entries, env.statDynamicPath = .found true →
        env.readDirDynamicPath = some entries →
        ReadDynamicDevices env =
          .ok ((entries.filter (fun f => !f.isDir)).map (fun f => f.name ++ "+"))) := by
  refine ⟨fun h => ?_, fun h => ?_, fun entries h h2 => ?_⟩ <;>
    unfold ReadDynamicDevices <;> rw [h] <;> try rfl
  rw [h2]
  rfl

/-- Witness for C9 at a concrete input: a directory with one regular
file ens3 and one subdirectory yields exactly the pattern ens3+. -/
theorem c9_readDynamicDevices_witness :
    ReadDynamicDevices c9WitnessEnv = .ok ["ens3+"] := by
  have h := (c9_readDynamicDevices c9WitnessEnv).2.2 [⟨"ens3", false⟩, ⟨"sub", true⟩]
    rfl rfl
  rw [h]
  rfl

/-! ## Proof infrastructure: Detect -/

theorem expandDevices_nil {env : Env} {s : State} {allLinks : List Link}
    (hlinks : env.linkList = some allLinks) (hdev : s.config.devices = []) :
    expandDevices env s = (.ok (), { s with config.devices := [] }) := by
  unfold expandDevices expandDeviceWildcards
  rw [hdev, hlinks]
  rfl

theorem expandDirectRoutingDevice_nil {env : Env} {s : State}
    (hdrd : s.config.directRoutingDevice = "") :
    expandDirectRoutingDevice env s = (.ok (), s) := by
  unfold expandDirectRoutingDevice
  rw [hdrd]
  rfl

theorem expandFold_nonwildcard {cfg : Config} {env : Env} {allLinks : List Link}
    {devices : List String} {acc : DeviceSet}
    (hnw : ∀ d ∈ devices, goEndsWith d "+" = false) :
    expandFold cfg env allLinks devices acc =
      devices.foldl (fun a d => insertDev d a) acc := by
  induction devices generalizing acc with
  | nil => rfl
  | cons d rest ih =>
    unfold expandFold at ih ⊢
    rw [List.foldl_cons, List.foldl_cons,
      if_neg (by simp [hnw d (List.mem_cons_self d rest)])]
    exact ih fun x hx => hnw x (List.mem_cons_of_mem d hx)

theorem expandDevices_nonwildcard {env : Env} {s : State} {allLinks : List Link}
    (hlinks : env.linkList = some allLinks)
    (hne : s.config.devices ≠ [])
    (hnw : ∀ d ∈ s.config.devices, goEndsWith d "+" = false)
    (hsorted : List.Sorted strLeRel s.config.devices)
    (hnodup : s.config.devices.Nodup) :
    expandDevices env s = (.ok (), { s with config.devices := s.config.devices }) := by
  unfold expandDevices expandDeviceWildcards
  rw [hlinks]
  dsimp only
  rw [expandFold_nonwildcard hnw, foldl_insertDev_of_nodup (by simpa using hnodup),
    List.nil_append]
  rw [if_neg (by
    simp only [Bool.and_eq_true, decide_eq_true_eq, beq_iff_eq, not_and]
    intro _ hlen
    exact hne (List.length_eq_zero.mp hlen))]
  rw [sortStrings_eq_self hsorted]

theorem detectionStep_explicit {env : Env} {l3DevOK : Bool} {s : State}
    (hne : s.config.devices ≠ []) :
    detectionStep env l3DevOK s =
      (.ok (), { s with
        devices := s.config.devices.foldl (fun d dev => insertDev dev d) s.devices }) := by
  unfold detectionStep
  rw [if_neg (by simp [hne])]

theorem specialDevicesStep_not_required {env : Env} {s : State}
    (hreq : s.config.directRoutingDeviceRequired = false)
    (hmc : s.config.ipv6MCastDevice = "")
    (hndp : s.config.enableIPv6NDP = false) :
    specialDevicesStep env s = (.ok (), s) := by
  unfold specialDevicesStep
  simp [hreq, hmc, hndp]

/-- C4 counterexample: a state tracking eth0 from an earlier detection,
detection required with no configured devices, and a failing route
listing — Detect returns an error, yet the DeviceSet is not left as it
was before the call (it has been reset to empty). -/
theorem c4_counterexample :
    (∃ e, (Detect baseEnv c4State).1 = .error e) ∧
      (Detect baseEnv c4State).2.devices ≠ c4State.devices :=
  ⟨⟨_, rfl⟩, by decide⟩

/-- C4 (amended): when Detect returns an error it returns no device
list, but partial state is retained: the DeviceSet was reset to empty at
the start of the call and keeps the mutations made before the failure
point; in particular, on a route-listing failure with no configured
devices and detection required, the DeviceSet is left empty (not
restored to its pre-call contents) and the configured device list has
been overwritten with its (empty) expansion. -/
theorem c4_detect_error_state (env : Env) (s : State) (allLinks : List Link)
    (hlinks : env.linkList = some allLinks)
    (hdev : s.config.devices = [])
    (hreq : areDevicesRequired s.config = true)
    (hdrd : s.config.directRoutingDevice = "")
    (hroutes : ∀ fam, env.routeList fam = none) :
    (∃ e, (Detect env s).1 = .error e) ∧
      (Detect env s).2.devices = [] ∧
      (Detect env s).2.config.devices = [] := by
  unfold Detect
  dsimp only
  rw [expandDevices_nil hlinks (by simpa using hdev)]
  dsimp only
  rw [expandDirectRoutingDevice_nil (by simpa using hdrd)]
  dsimp only
  unfold detectionStep
  dsimp only
  rw [if_pos (by simpa [areDevicesRequired] using hreq), hroutes]
  exact ⟨⟨_, rfl⟩, rfl, rfl⟩

/-- C8: with a non-empty explicitly configured, wildcard-free device
list, Detect seeds the DeviceSet directly from that list and returns
exactly it, independently of the route listing (the hypotheses place no
constraint on `env.routeList`, so the result holds even when every route
listing fails — no route listing is consulted). -/
theorem c8_detect_explicit_list (env : Env) (s : State) (allLinks : List Link)
    (hlinks : env.linkList = some allLinks)
    (hne : s.config.devices ≠ [])
    (hnw : ∀ d ∈ s.config.devices, goEndsWith d "+" = false)
    (hsorted : List.Sorted strLeRel s.config.devices)
    (hnodup : s.config.devices.Nodup)
    (hdrd : s.config.directRoutingDevice = "")
    (hreq : s.config.directRoutingDeviceRequired = false)
    (hmc : s.config.ipv6MCastDevice = "")
    (hndp : s.config.enableIPv6NDP = false) :
    (Detect env s).1 = .ok s.config.devices ∧
      (Detect env s).2.devices = s.config.devices := by
  unfold Detect
  dsimp only
  rw [expandDevices_nonwildcard hlinks (by simpa using hne) (by simpa using hnw)
    (by simpa using hsorted) (by simpa using hnodup)]
  dsimp only
  rw [expandDirectRoutingDevice_nil (by simpa using hdrd)]
  dsimp only
  rw [detectionStep_explicit (by simpa using hne)]
  dsimp only
  rw [specialDevicesStep_not_required (by simpa using hreq) (by simpa using hmc)
    (by simpa using hndp)]
  dsimp only
  rw [foldl_insertDev_of_nodup (by simpa using hnodup), List.nil_append]
  unfold getDeviceList
  rw [sortStrings_eq_self hsorted]
  exact ⟨rfl, rfl⟩

/-- Witness for C8 at a concrete input: the explicit list eth0 is
returned unchanged with the route listing failing throughout. -/
theorem c8_detect_explicit_list_witness :
    (Detect baseEnv c8State).1 = .ok ["eth0"] ∧
      (Detect baseEnv c8State).2.devices = ["eth0"] :=
  c8_detect_explicit_list baseEnv c8State [] rfl (by decide) (by decide) (by decide)
    (by decide) rfl rfl rfl rfl

/-- C5 counterexample: Detect completes successfully with the explicitly
configured device list lo, and afterwards the DeviceSet contains lo, a
name with an excluded device-name prefix — so the invariant does not
hold after every completed Detect. -/
theorem c5_counterexample :
    (Detect baseEnv c5State).1 = .ok ["lo"] ∧
      "lo" ∈ (Detect baseEnv c5State).2.devices ∧
      hasExcludedPrefix "lo" = true :=
  ⟨rfl, by decide, rfl⟩

/-- Witness for C4 at a concrete input: with eth0 previously tracked and
the route listing failing, Detect errors out and leaves the DeviceSet
empty. -/
theorem c4_detect_error_state_witness :
    (∃ e, (Detect baseEnv c4State).1 = .error e) ∧
      (Detect baseEnv c4State).2.devices = [] ∧
      (Detect baseEnv c4State).2.config.devices = [] :=
  c4_detect_error_state baseEnv c4State [] rfl rfl rfl rfl (fun _ => rfl)

/-! ## Proof infrastructure: the static device check -/

theorem lookup_mem {n : String} {x : Link} :
    ∀ {l : List (String × Link)}, lookupDev n l = some x → (n, x) ∈ l := by
  intro l
  induction l with
  | nil => intro h; cases h
  | cons p rest ih =>
    obtain ⟨k, v⟩ := p
    intro h
    unfold lookupDev at h
    by_cases he : n = k
    · rw [if_pos he] at h
      injection h with h
      subst h he
      exact List.mem_cons_self _ _
    · rw [if_neg he] at h
      exact List.mem_cons_of_mem _ (ih h)

theorem scanLink_changed_mono {cfg : Config} {env : Env} {f : List String}
    {st : ScanState} {link : Link} (h : st.changed = true) :
    (scanLink cfg env f st link).changed = true := by
  unfold scanLink
  split
  · split
    · rfl
    · exact h
  · split
    · rfl
    · split
      · rfl
      · exact h

theorem scanLink_devices_other {cfg : Config} {env : Env} {f : List String}
    {st : ScanState} {link : Link} {n : String} (hne : n ≠ link.name) :
    (n ∈ (scanLink cfg env f st link).devices ↔ n ∈ st.devices) := by
  unfold scanLink
  split
  · split
    · exact List.mem_erase_of_ne hne
    · exact Iff.rfl
  · split
    · simp [mem_insertDev, hne]
    · split
      · exact Iff.rfl
      · exact Iff.rfl

theorem scanLink_lookup_other {cfg : Config} {env : Env} {f : List String}
    {st : ScanState} {link : Link} {n : String} (hne : n ≠ link.name) :
    lookupDev n (scanLink cfg env f st link).exist = lookupDev n st.exist := by
  unfold scanLink
  have hcons : ∀ rest : List (String × Link),
      lookupDev n ((link.name, link) :: rest) = lookupDev n rest := by
    intro rest
    rw [show lookupDev n ((link.name, link) :: rest) =
        if n = link.name then some link else lookupDev n rest from rfl, if_neg hne]
  split
  · split
    · rfl
    · rfl
  · split
    · exact hcons st.exist
    · split
      · exact hcons st.exist
      · exact hcons st.exist

theorem scanLink_exist_sub {cfg : Config} {env : Env} {f : List String}
    {st : ScanState} {link : Link} {p : String × Link}
    (h : p ∈ (scanLink cfg env f st link).exist) :
    p ∈ st.exist ∨
      (p = (link.name, link) ∧ deviceFilterMatch cfg env f link.name = true ∧
        hasExcludedPrefix link.name = false) := by
  unfold scanLink at h
  split at h
  · split at h
    · exact Or.inl h
    · exact Or.inl h
  · rename_i hpass
    have hm : deviceFilterMatch cfg env f link.name = true := by
      cases hb : deviceFilterMatch cfg env f link.name
      · exact absurd (by rw [hb]; rfl) hpass
      · rfl
    have hx : hasExcludedPrefix link.name = false := by
      cases hb : hasExcludedPrefix link.name
      · rfl
      · exact absurd (by rw [hb]; simp) hpass
    have hp : p ∈ (link.name, link) :: st.exist →
        p ∈ st.exist ∨
          (p = (link.name, link) ∧ deviceFilterMatch cfg env f link.name = true ∧
            hasExcludedPrefix link.name = false) := fun hmm =>
      (List.mem_cons.mp hmm).elim
        (fun he => Or.inr ⟨he, hm, hx⟩)
        Or.inl
    split at h
    · exact hp h
    · split at h
      · exact hp h
      · exact hp h

theorem scanFold_changed_mono {cfg : Config} {env : Env} {f : List String} :
    ∀ {links : List Link} {st : ScanState}, st.changed = true →
      (links.foldl (scanLink cfg env f) st).changed = true := by
  intro links
  induction links with
  | nil => intro st h; exact h
  | cons link rest ih =>
    intro st h
    rw [List.foldl_cons]
    exact ih (scanLink_changed_mono h)

theorem scanFold_devices_other {cfg : Config} {env : Env} {f : List String}
    {n : String} :
    ∀ {links : List Link} {st : ScanState}, n ∉ links.map Link.name →
      (n ∈ (links.foldl (scanLink cfg env f) st).devices ↔ n ∈ st.devices) := by
  intro links
  induction links with
  | nil => intro st _; exact Iff.rfl
  | cons link rest ih =>
    intro st h
    rw [List.map_cons, List.mem_cons, not_or] at h
    rw [List.foldl_cons]
    exact (ih h.2).trans (scanLink_devices_other h.1)

theorem scanFold_lookup_other {cfg : Config} {env : Env} {f : List String}
    {n : String} :
    ∀ {links : List Link} {st : ScanState}, n ∉ links.map Link.name →
      lookupDev n (links.foldl (scanLink cfg env f) st).exist =
        lookupDev n st.exist := by
  intro links
  induction links with
  | nil => intro st _; rfl
  | cons link rest ih =>
    intro st h
    rw [List.map_cons, List.mem_cons, not_or] at h
    rw [List.foldl_cons, ih h.2, scanLink_lookup_other h.1]

theorem scanFold_exist_sub {cfg : Config} {env : Env} {f : List String} :
    ∀ {links : List Link} {st : ScanState} {p : String × Link},
      p ∈ (links.foldl (scanLink cfg env f) st).exist →
      p ∈ st.exist ∨ (p.2 ∈ links ∧ p.1 = p.2.name ∧
        deviceFilterMatch cfg env f p.2.name = true ∧
        hasExcludedPrefix p.2.name = false) := by
  intro links
  induction links with
  | nil => intro st p h; exact Or.inl h
  | cons link rest ih =>
    intro st p h
    rw [List.foldl_cons] at h
    rcases ih h with h1 | ⟨hmem, hrest⟩
    · rcases scanLink_exist_sub h1 with h2 | ⟨he, hm, hx⟩
      · exact Or.inl h2
      · subst he
        exact Or.inr ⟨List.mem_cons_self _ _, rfl, hm, hx⟩
    · exact Or.inr ⟨List.mem_cons_of_mem _ hmem, hrest⟩

theorem checkStaticDevices_mem_inv {cfg : Config} {env : Env} {devices : DeviceSet}
    {allLinks : List Link}
    (hlinks : env.linkList = some allLinks)
    (hfilter : effectiveDeviceConfigs env ≠ []) :
    ∀ n ∈ (checkStaticDevices cfg env devices).2,
      ∃ link, lookupDev n (allLinks.foldl
            (scanLink cfg env (effectiveDeviceConfigs env))
            ⟨devices, [], false⟩).exist = some link ∧
        link ∈ allLinks ∧ link.name = n ∧
        deviceFilterMatch cfg env (effectiveDeviceConfigs env) n = true ∧
        hasExcludedPrefix n = false := by
  intro n hn
  unfold checkStaticDevices at hn
  rw [hlinks] at hn
  dsimp only at hn
  rw [if_neg (by simpa using hfilter)] at hn
  unfold removeVanished at hn
  dsimp only at hn
  rw [List.mem_filter] at hn
  rcases hn with ⟨_, hsome⟩
  rcases Option.isSome_iff_exists.mp hsome with ⟨link, hlook⟩
  rcases scanFold_exist_sub (lookup_mem hlook) with h | ⟨hmem, hname, hm, hx⟩
  · cases h
  · exact ⟨link, hlook, hmem, hname.symm, by rw [← hname] at hm; exact hm,
      by rw [← hname] at hx; exact hx⟩

/-- C7: a reconciliation tick returns unchanged and leaves the DeviceSet
unmodified when the kernel link listing fails, and likewise when the
effective filter pattern set (configured plus dynamically discovered
patterns) is empty, regardless of host state. -/
theorem c7_checkStaticDevices_skip (cfg : Config) (env : Env) (devices : DeviceSet) :
    (env.linkList = none → checkStaticDevices cfg env devices = (false, devices)) ∧
    (effectiveDeviceConfigs env = [] →
      checkStaticDevices cfg env devices = (false, devices)) := by
  constructor
  · intro h
    unfold checkStaticDevices
    rw [h]
  · intro h
    unfold checkStaticDevices
    cases env.linkList with
    | none => rfl
    | some allLinks =>
      dsimp only
      rw [if_pos (by simp [h])]

/-- Witness for C7 at a concrete input: with no configured or dynamic
patterns the tick reports no change and keeps the tracked device. -/
theorem c7_checkStaticDevices_skip_witness :
    checkStaticDevices baseConfig baseEnv ["eth0"] = (false, ["eth0"]) :=
  (c7_checkStaticDevices_skip baseConfig baseEnv ["eth0"]).2 rfl

/-- C10: after a tick in which the link listing succeeded and the
effective filter pattern set was non-empty, every name remaining in the
DeviceSet is recorded in the scan's currently-present map and names a
host link passing the effective filter with no excluded prefix, so the
subsequent address-comparison only looks up links recorded as present. -/
theorem c10_checkStaticDevices_present (cfg : Config) (env : Env)
    (devices : DeviceSet) (allLinks : List Link)
    (hlinks : env.linkList = some allLinks)
    (hfilter : effectiveDeviceConfigs env ≠ []) :
    ∀ n ∈ (checkStaticDevices cfg env devices).2,
      ∃ link, lookupDev n (allLinks.foldl
            (scanLink cfg env (effectiveDeviceConfigs env))
            ⟨devices, [], false⟩).exist = some link ∧
        link ∈ allLinks ∧ link.name = n ∧
        deviceFilterMatch cfg env (effectiveDeviceConfigs env) n = true ∧
        hasExcludedPrefix n = false :=
  checkStaticDevices_mem_inv hlinks hfilter

/-- Witness for C10 at a concrete input: after a tick on one tracked,
filter-passing host link, the surviving name eth0 resolves in the
currently-present map to a host link passing the filter. -/
theorem c10_checkStaticDevices_present_witness :
    ∃ link, lookupDev "eth0" (([eth0Link] : List Link).foldl
          (scanLink baseConfig c6Env (effectiveDeviceConfigs c6Env))
          ⟨["eth0"], [], false⟩).exist = some link ∧
      link ∈ ([eth0Link] : List Link) ∧ link.name = "eth0" ∧
      deviceFilterMatch baseConfig c6Env (effectiveDeviceConfigs c6Env) "eth0" = true ∧
      hasExcludedPrefix "eth0" = false :=
  c10_checkStaticDevices_present baseConfig c6Env ["eth0"] [eth0Link] rfl (by decide)
    "eth0" (by decide)

theorem updateDevicesFromRoutes_mem {env : Env} {cfg : Config}
    {filterLst : List String} {l3DevOK : Bool} {routes : List Route}
    {devices : DeviceSet} :
    ∀ n ∈ (updateDevicesFromRoutes env cfg filterLst l3DevOK routes devices).2,
      n ∈ devices ∨ ∃ idx hasDef link, env.linkByIndex idx = some link ∧
        link.name = n ∧ isViableDevice env cfg filterLst l3DevOK hasDef link = true := by
  have main : ∀ (infos : List (Int × Bool)) (st : Bool × DeviceSet) (n : String),
      n ∈ (infos.foldl (fun (st : Bool × DeviceSet) info =>
          let (changed, devices) := st
          match env.linkByIndex info.1 with
          | none => (changed, devices)
          | some link =>
            if link.name ∈ devices then (changed, devices)
            else if isViableDevice env cfg filterLst l3DevOK info.2 link then
              (true, insertDev link.name devices)
            else (changed, devices)) st).2 →
      n ∈ st.2 ∨ ∃ idx hasDef link, env.linkByIndex idx = some link ∧
        link.name = n ∧ isViableDevice env cfg filterLst l3DevOK hasDef link = true := by
    intro infos
    induction infos with
    | nil => intro st n h; exact Or.inl h
    | cons info rest ih =>
      intro st n h
      rw [List.foldl_cons] at h
      rcases ih _ n h with h1 | h1
      · obtain ⟨changed, devs⟩ := st
        dsimp only at h1 ⊢
        cases hL : env.linkByIndex info.1 with
        | none => rw [hL] at h1; exact Or.inl h1
        | some link =>
          rw [hL] at h1
          dsimp only at h1
          by_cases hmem : link.name ∈ devs
          · rw [if_pos hmem] at h1
            exact Or.inl h1
          · rw [if_neg hmem] at h1
            by_cases hv : isViableDevice env cfg filterLst l3DevOK info.2 link = true
            · rw [if_pos hv] at h1
              dsimp only at h1
              rcases mem_insertDev.mp h1 with rfl | h2
              · exact Or.inr ⟨info.1, info.2, link, hL, rfl, hv⟩
              · exact Or.inl h2
            · rw [if_neg hv] at h1
              exact Or.inl h1
      · exact Or.inr h1
  intro n hn
  unfold updateDevicesFromRoutes at hn
  exact main _ _ n hn

/-- C5 (amended): after each reconciliation tick whose link listing
succeeded and whose effective filter pattern set was non-empty, the
DeviceSet contains no name failing the effective filter and no name
with an excluded device-name prefix; and during Detect, route-based
detection adds to the DeviceSet only names of links classified viable
(explicitly configured devices are seeded verbatim and may violate the
invariant — see the counterexample). -/
theorem c5_deviceSet_invariant (cfg : Config) (env : Env) (devices : DeviceSet)
    (allLinks : List Link) (filterLst : List String) (l3DevOK : Bool)
    (routes : List Route)
    (hlinks : env.linkList = some allLinks)
    (hfilter : effectiveDeviceConfigs env ≠ []) :
    (∀ n ∈ (checkStaticDevices cfg env devices).2,
        deviceFilterMatch cfg env (effectiveDeviceConfigs env) n = true ∧
        hasExcludedPrefix n = false) ∧
    (∀ n ∈ (updateDevicesFromRoutes env cfg filterLst l3DevOK routes devices).2,
        n ∈ devices ∨ ∃ idx hasDef link, env.linkByIndex idx = some link ∧
          link.name = n ∧ isViableDevice env cfg filterLst l3DevOK hasDef link = true) := by
  constructor
  · intro n hn
    rcases checkStaticDevices_mem_inv hlinks hfilter n hn with ⟨link, _, _, _, hm, hx⟩
    exact ⟨hm, hx⟩
  · exact updateDevicesFromRoutes_mem

/-- Witness for C5 at a concrete input: a tick over one host link with a
matching configured pattern, and a route-based update with no routes. -/
theorem c5_deviceSet_invariant_witness :
    (∀ n ∈ (checkStaticDevices baseConfig c6Env ["eth0"]).2,
        deviceFilterMatch baseConfig c6Env (effectiveDeviceConfigs c6Env) n = true ∧
        hasExcludedPrefix n = false) ∧
    (∀ n ∈ (updateDevicesFromRoutes c6Env baseConfig [] true [] ["eth0"]).2,
        n ∈ (["eth0"] : DeviceSet) ∨
          ∃ idx hasDef link, c6Env.linkByIndex idx = some link ∧
            link.name = n ∧ isViableDevice c6Env baseConfig [] true hasDef link = true) :=
  c5_deviceSet_invariant baseConfig c6Env ["eth0"] [eth0Link] [] true [] rfl (by decide)

/-! ## Claim C6: the TC filter auditor -/

theorem scanLink_lost {cfg : Config} {env : Env} {f : List String}
    {st : ScanState} {link : Link}
    (hmatch : deviceFilterMatch cfg env f link.name = true)
    (hexcl : hasExcludedPrefix link.name = false)
    (hmem : link.name ∈ st.devices)
    (hlost : tcFiltersLost env link = true) :
    scanLink cfg env f st link =
      { devices := st.devices, exist := (link.name, link) :: st.exist,
        changed := true } := by
  unfold scanLink
  rw [hmatch, hexcl]
  rw [if_neg (by simp), if_neg (by simpa using hmem), if_pos hlost]

/-- C6: `tcFiltersLost` returns true exactly when both the ingress and
egress traffic-control listings succeed and together contain no BPF
filter with a recognized program-name substring — any listing error
yields false — and, within a reconciliation tick, hook loss on a
tracked, present, filter-passing device marks the tick as changed
without removing that device from the DeviceSet. -/
theorem c6_tcFiltersLost (cfg : Config) (env : Env) (devices : DeviceSet)
    (allLinks : List Link) (link : Link)
    (hlinks : env.linkList = some allLinks)
    (hfilter : effectiveDeviceConfigs env ≠ [])
    (hnodup : (allLinks.map Link.name).Nodup)
    (hmem : link ∈ allLinks)
    (htracked : link.name ∈ devices)
    (hmatch : deviceFilterMatch cfg env (effectiveDeviceConfigs env) link.name = true)
    (hexcl : hasExcludedPrefix link.name = false)
    (hlost : tcFiltersLost env link = true) :
    (∀ (envA : Env) (linkA : Link), tcFiltersLost envA linkA = true ↔
        ∃ fi fe, envA.filterList linkA.name tcFilterParentIngress = some fi ∧
          envA.filterList linkA.name tcFilterParentEgress = some fe ∧
          ∀ f ∈ fi ++ fe, isRecognizedFilter f = false) ∧
    ((checkStaticDevices cfg env devices).1 = true ∧
      link.name ∈ (checkStaticDevices cfg env devices).2) := by
  constructor
  · intro envA linkA
    unfold tcFiltersLost
    cases h1 : envA.filterList linkA.name tcFilterParentIngress with
    | none =>
      constructor
      · intro hx
        simp at hx
      · rintro ⟨fi, fe, hfi, -, -⟩
        cases hfi
    | some fi =>
      cases h2 : envA.filterList linkA.name tcFilterParentEgress with
      | none =>
        constructor
        · intro hx
          simp at hx
        · rintro ⟨fi', fe, -, hfe, -⟩
          cases hfe
      | some fe =>
        dsimp only
        rw [List.isEmpty_iff, List.filter_eq_nil_iff]
        constructor
        · intro hall
          exact ⟨fi, fe, rfl, rfl, fun f hf => by simpa using hall f hf⟩
        · rintro ⟨fi', fe', hfi, hfe, hall⟩
          injection hfi with hfi
          injection hfe with hfe
          subst hfi hfe
          intro f hf
          simp [hall f hf]
  · obtain ⟨pre, post, rfl⟩ := List.append_of_mem hmem
    rw [List.map_append, List.map_cons] at hnodup
    obtain ⟨hnodA, hnodB, hdisj⟩ := List.nodup_append.mp hnodup
    have hpost : link.name ∉ post.map Link.name := (List.nodup_cons.mp hnodB).1
    have hpre : link.name ∉ pre.map Link.name :=
      fun hin => hdisj hin (List.mem_cons_self _ _)
    unfold checkStaticDevices
    rw [hlinks]
    dsimp only
    rw [if_neg (by simpa using hfilter)]
    rw [List.foldl_append, List.foldl_cons]
    have hm1 : link.name ∈
        (pre.foldl (scanLink cfg env (effectiveDeviceConfigs env))
          ⟨devices, [], false⟩).devices :=
      (scanFold_devices_other hpre).mpr htracked
    rw [scanLink_lost hmatch hexcl hm1 hlost]
    unfold removeVanished
    dsimp only
    have hc : (post.foldl (scanLink cfg env (effectiveDeviceConfigs env))
        { devices := (pre.foldl (scanLink cfg env (effectiveDeviceConfigs env))
            ⟨devices, [], false⟩).devices,
          exist := (link.name, link) ::
            (pre.foldl (scanLink cfg env (effectiveDeviceConfigs env))
              ⟨devices, [], false⟩).exist,
          changed := true }).changed = true :=
      scanFold_changed_mono rfl
    rw [hc]
    have hdev : link.name ∈ (post.foldl (scanLink cfg env (effectiveDeviceConfigs env))
        { devices := (pre.foldl (scanLink cfg env (effectiveDeviceConfigs env))
            ⟨devices, [], false⟩).devices,
          exist := (link.name, link) ::
            (pre.foldl (scanLink cfg env (effectiveDeviceConfigs env))
              ⟨devices, [], false⟩).exist,
          changed := true }).devices :=
      (scanFold_devices_other hpost).mpr hm1
    have hlook : lookupDev link.name
        (post.foldl (scanLink cfg env (effectiveDeviceConfigs env))
          { devices := (pre.foldl (scanLink cfg env (effectiveDeviceConfigs env))
              ⟨devices, [], false⟩).devices,
            exist := (link.name, link) ::
              (pre.foldl (scanLink cfg env (effectiveDeviceConfigs env))
                ⟨devices, [], false⟩).exist,
            changed := true }).exist = some link := by
      rw [scanFold_lookup_other hpost]
      exact if_pos rfl
    constructor
    · rw [Bool.true_or, Bool.true_or]
    · rw [List.mem_filter, hlook]
      exact ⟨hdev, rfl⟩

/-- Witness for C6 at a concrete input: eth0 is tracked and present with
empty filter listings at both hook points, so the tick reports changed
and keeps eth0 tracked. -/
theorem c6_tcFiltersLost_witness :
    (∀ (envA : Env) (linkA : Link), tcFiltersLost envA linkA = true ↔
        ∃ fi fe, envA.filterList linkA.name tcFilterParentIngress = some fi ∧
          envA.filterList linkA.name tcFilterParentEgress = some fe ∧
          ∀ f ∈ fi ++ fe, isRecognizedFilter f = false) ∧
    ((checkStaticDevices baseConfig c6Env ["eth0"]).1 = true ∧
      "eth0" ∈ (checkStaticDevices baseConfig c6Env ["eth0"]).2) :=
  c6_tcFiltersLost baseConfig c6Env ["eth0"] [eth0Link] eth0Link rfl (by decide)
    (by decide) (by decide) (by decide) (by decide) (by decide) rfl

end Devices
